import Mathlib

/-!
Verification of the annotated-matrix module (`ann_data.py`): the storage-kind
classification, the bound metadata table (`BoundRecArr`), the dimension check,
construction, slicing, column write-back, transpose and deletion of `AnnData`.

Two models are developed, both translated from the source:
* a value-level model (`AnnData` and friends) in which numpy arrays, record
  arrays and dicts are plain Lean values; it settles the claims about shapes,
  classification, table contents and error behaviour;
* a reference-level model (namespace `Ref`) with an explicit heap of array and
  dict objects, in which numpy basic slicing and `.T` produce views and Python
  dict objects have identities; it settles the claims about aliasing and
  in-place mutation.
-/

/-- Python exceptions raised by the module, distinguished by raise site.
All of these are `ValueError` / `IndexError` / `AssertionError` at runtime;
the constructors record which check fired. -/
inductive PyErr
  /-- constructor input matches none of the storage types (`ann_data.py` line 145) -/
  | unsupportedStorageType (allowed : List String)
  /-- Python message `X needs to be 2-dimensional` (line 152) -/
  | invalidRank (d : Nat)
  /-- Python message `meta needs to be a recarray or dictlike` (line 39) -/
  | invalidMetaSource (desc : String)
  /-- Raised when `np.dtype(...)` rejects the field layout, e.g. duplicate names (line 50) -/
  | schemaError
  /-- numpy refuses to broadcast a column of the wrong length into the record array -/
  | broadcastError
  /-- sample metadata length disagrees with `data.shape[0]` (line 85) -/
  | rowMismatch (expected got : Nat)
  /-- feature metadata length disagrees with `data.shape[1]` (line 89) -/
  | colMismatch (expected got : Nat)
  /-- Python message `New column has too many entries` (line 73) -/
  | columnTooLong (got limit : Nat)
  /-- Raised by `ndarray.__setitem__` with a string key that is not a field -/
  | noField (name : String)
  /-- tuple-index access out of range, e.g. `shape[1]` of a 1-D array -/
  | indexError
  /-- a failed `assert` statement (lines 230-231) -/
  | assertionError
  /-- Raised by `ndarray.__delitem__`: `cannot delete array elements` -/
  | cannotDeleteArrayElements
  /-- Raised because `spmatrix` does not support item deletion -/
  | typeErrorNoDelete
deriving DecidableEq, Repr

instance {ε α : Type} [DecidableEq ε] [DecidableEq α] : DecidableEq (Except ε α) := by
  intro a b
  cases a <;> cases b
  case error.error e f =>
    exact decidable_of_iff (e = f) ⟨fun h => by rw [h], fun h => by cases h; rfl⟩
  case error.ok e f => exact .isFalse (fun hh => by cases hh)
  case ok.error e f => exact .isFalse (fun hh => by cases hh)
  case ok.ok e f =>
    exact decidable_of_iff (e = f) ⟨fun h => by rw [h], fun h => by cases h; rfl⟩

/-- A numpy array value: a shape and the row-major flat data.  Only the
integer contents matter for the claims, so elements are `Int`. -/
structure NdArr where
  shape : List Nat
  data : List Int
deriving DecidableEq, Repr

/-- Attribute `x.shape[0]` (with numpy raising modeled elsewhere; default 0). -/
def NdArr.nrows (x : NdArr) : Nat := x.shape.getD 0 0

/-- Attribute `x.shape[1]`. -/
def NdArr.ncols (x : NdArr) : Nat := x.shape.getD 1 0

/-- Element read `x[i, j]` of a 2-D array (row-major). -/
def NdArr.get2 (x : NdArr) (i j : Nat) : Int := x.data.getD (i * x.ncols + j) 0

/-- Property `x.T`.  For a 2-D array the axes are swapped; numpy's `.T` of a 1-D or
0-d array is the array itself. -/
def NdArr.T (x : NdArr) : NdArr :=
  match x.shape with
  | [m, n] => ⟨[n, m], (List.range (n * m)).map (fun k => x.data.getD ((k % m) * n + k / m) 0)⟩
  | _ => x

/-- Model of `np.arange(n)` as an integer column. -/
def intRange (n : Nat) : List Int := (List.range n).map Int.ofNat

/-- The `StorageType` enum (`ann_data.py` lines 13-20). -/
inductive StorageType
  | Array
  | Masked
  | Sparse
deriving DecidableEq, Repr

/-- Iteration order of the enum members: `Array`, `Masked`, `Sparse`. -/
def StorageType.memberOrder : List StorageType := [.Array, .Masked, .Sparse]

/-- The Python runtime class of a value passed as `X`. -/
inductive PyCls
  | ndarray
  | maskedArray
  | spmatrix
  | pyList
deriving DecidableEq, Repr

/-- Relation `isinstance(X, s_type.value)`.  `ma.MaskedArray` is a subclass of
`np.ndarray`, so a masked array is an instance of the `Array` member's class
as well as of the `Masked` member's class. -/
def instanceOf : PyCls → StorageType → Bool
  | .ndarray, .Array => true
  | .maskedArray, .Array => true
  | .maskedArray, .Masked => true
  | .spmatrix, .Sparse => true
  | _, _ => false

/-- The `for s_type in StorageType: if isinstance(X, s_type.value)` loop of
`AnnData.__init__` (lines 139-147): the first matching member wins, otherwise
a `ValueError` names the allowed classes (`StorageType.classes`). -/
def classifyCls (c : PyCls) : Except PyErr StorageType :=
  match StorageType.memberOrder.find? (fun s => instanceOf c s) with
  | some s => .ok s
  | none => .error (.unsupportedStorageType ["ndarray", "MaskedArray", "spmatrix"])

/-- A value passed as `X`: its runtime class and (for array-like classes)
its numeric contents. -/
structure PyVal where
  cls : PyCls
  arr : NdArr
deriving DecidableEq, Repr

def SMP_NAMES : String := "smp_names"

def VAR_NAMES : String := "var_names"

/-- The value content of a `BoundRecArr` (lines 25-80): the ordered named
columns (the dtype fields, identity column included) and the identity column
name (`_name_col`).  The `_parent` back-reference is not stored: the bound
write-back is modeled as an operation on the owning `AnnData` (see
`AnnData.boundSetItem`). -/
structure BoundRecArr where
  fields : List (String × List Int)
  nameCol : String
deriving DecidableEq, Repr

/-- The dtype field names. -/
def BoundRecArr.names (t : BoundRecArr) : List String := t.fields.map Prod.fst

/-- Value `len(arr)`: the record-array length, fixed at construction to
`len(cols[0])`. -/
def BoundRecArr.length (t : BoundRecArr) : Nat :=
  (t.fields.head?.map (fun c => c.2.length)).getD 0

/-- The `columns` property (lines 64-66): all field names except the
identity column. -/
def BoundRecArr.columns (t : BoundRecArr) : List String :=
  t.names.filter (fun c => ¬ c = t.nameCol)

/-- Column read by name. -/
def BoundRecArr.getCol (t : BoundRecArr) (n : String) : List Int :=
  ((t.fields.find? (fun c => c.1 == n)).map Prod.snd).getD []

/-- The `source` argument of `BoundRecArr.__new__` (line 30). -/
inductive MetaSource
  /-- Case `source is None`: empty metadata -/
  | none
  /-- an existing `np.recarray` (its dtype fields in order) -/
  | recarray (fs : List (String × List Int))
  /-- a dict-like mapping, in key order -/
  | mapping (fs : List (String × List Int))
  /-- any other type: rejected -/
  | other (desc : String)
deriving DecidableEq, Repr

/-- Model of `BoundRecArr.__new__(cls, source, nr_row, name_col, parent)`
(lines 30-62).  The assembled columns are the source's columns; for `None`
the identity column `np.arange(nr_row)` alone; for a mapping the identity
column is appended when absent.  `np.dtype` rejects duplicate field names
(modeled as `schemaError`); the array length is `len(cols[0])` and every
column assignment must fit that length (a mismatch is numpy's broadcast
`ValueError`, modeled as `broadcastError`; length-1 broadcasting is not
modeled, no claim exercises it). -/
def buildCols (source : MetaSource) (nrRow : Nat) (nameCol : String) :
    List (String × List Int) :=
  match source with
  | .none => [(nameCol, intRange nrRow)]
  | .recarray fs => fs
  | .mapping fs =>
      if nameCol ∈ fs.map Prod.fst then fs else fs ++ [(nameCol, intRange nrRow)]
  | .other _ => []

def buildAux (cs : List (String × List Int)) (nameCol : String) :
    Except PyErr BoundRecArr :=
  if ¬ (cs.map Prod.fst).Nodup then .error .schemaError
  else match cs with
    | [] => .error .indexError
    | c0 :: rest =>
        if (c0 :: rest).all (fun c => c.2.length == c0.2.length) then
          .ok ⟨c0 :: rest, nameCol⟩
        else .error .broadcastError

def BoundRecArr.build (source : MetaSource) (nrRow : Nat) (nameCol : String) :
    Except PyErr BoundRecArr :=
  match source with
  | .other d => .error (.invalidMetaSource d)
  | _ => buildAux (buildCols source nrRow nameCol) nameCol

/-- Row selection `table[idxs]` followed by the copying rebuild that
`BoundRecArr.__new__` performs on a recarray source (every column is
materialized with `np.array(...)`, line 60). -/
def BoundRecArr.selectRows (t : BoundRecArr) (idxs : List Nat) : BoundRecArr :=
  ⟨t.fields.map (fun c => (c.1, idxs.map (fun i => c.2.getD i 0))), t.nameCol⟩

/-- An index selector along one axis: a bare integer, a slice `a:b`, the
full slice `:`, or an integer list (fancy indexing).  Negative indices are
not modeled; no claim uses them. -/
inductive Sel
  | int (i : Nat)
  | slc (a b : Nat)
  | all
  | list (l : List Nat)
deriving DecidableEq, Repr

/-- The integer normalization of `AnnData._unpack_index` (lines 205-211):
a bare integer becomes the length-1 slice covering it. -/
def Sel.unpack : Sel → Sel
  | .int i => .slc i (i + 1)
  | s => s

/-- The axis positions selected over an axis of length `n`.  Python slices
clip to the axis length. -/
def Sel.resolve (s : Sel) (n : Nat) : List Nat :=
  match s with
  | .int i => [i]
  | .slc a b => ((List.range n).drop a).take (b - a)
  | .all => List.range n
  | .list l => l

/-- Basic (view-producing) selectors: everything except integer lists. -/
def Sel.isBasic : Sel → Bool
  | .list _ => false
  | _ => true

/-- Indexing `X[s1, s2]` for a 2-D array, value level.  A pair of basic selectors
selects the sub-block; one integer list with a basic selector is outer
(advanced) indexing; two integer lists are numpy's pointwise fancy indexing,
which produces a 1-D result and requires equal list lengths and in-range
indices. -/
def npGet2 (x : NdArr) (s1 s2 : Sel) : Except PyErr NdArr :=
  match s1, s2 with
  | .list l1, .list l2 =>
      if l1.length ≠ l2.length then .error .indexError
      else if ¬ (l1.all (fun i => i < x.nrows) ∧ l2.all (fun j => j < x.ncols)) then
        .error .indexError
      else .ok ⟨[l1.length], (l1.zip l2).map (fun p => x.get2 p.1 p.2)⟩
  | _, _ =>
      let rs := s1.resolve x.nrows
      let cs := s2.resolve x.ncols
      if ¬ ((s1 matches .list _ → rs.all (fun i => i < x.nrows)) ∧
            (s2 matches .list _ → cs.all (fun j => j < x.ncols))) then
        .error .indexError
      else
        .ok ⟨[rs.length, cs.length],
          (List.range (rs.length * cs.length)).map
            (fun k => x.get2 (rs.getD (k / cs.length) 0) (cs.getD (k % cs.length) 0))⟩

/-- The value content of an `AnnData` instance (lines 93-165): the storage
classification, the runtime class of `X`, the storage values, the two bound
tables, and the `vis` and `_meta` dict contents. -/
structure AnnData where
  storage_type : StorageType
  cls : PyCls
  X : NdArr
  smp : BoundRecArr
  var : BoundRecArr
  vis : List (String × Int)
  meta : List (String × Int)
deriving DecidableEq, Repr

/-- Model of `AnnData.__init__(X, smp, var, vis, **meta)` (lines 94-165), value level:
classify `X` against the enum, reshape a rank-1 `X` to `(L, 1)`, reject other
ranks, build the two bound tables (`smp` first), run `_check_dimensions`
(lines 82-91), default `vis` with `vis or {}`, store `meta`. -/
def npPrepare (x0 : NdArr) : NdArr :=
  if x0.shape.length = 1 then ⟨[x0.shape.getD 0 0, 1], x0.data⟩ else x0

def AnnData.init (x : PyVal) (smp var : MetaSource) (vis : Option (List (String × Int)))
    (meta : List (String × Int)) : Except PyErr AnnData :=
  match classifyCls x.cls with
  | .error e => .error e
  | .ok st =>
    if (npPrepare x.arr).shape.length ≠ 2 then
      .error (.invalidRank (npPrepare x.arr).shape.length)
    else
      match BoundRecArr.build smp (npPrepare x.arr).nrows SMP_NAMES with
      | .error e => .error e
      | .ok smpT =>
        match BoundRecArr.build var (npPrepare x.arr).ncols VAR_NAMES with
        | .error e => .error e
        | .ok varT =>
          if smpT.length ≠ (npPrepare x.arr).nrows then
            .error (.rowMismatch (npPrepare x.arr).nrows smpT.length)
          else if varT.length ≠ (npPrepare x.arr).ncols then
            .error (.colMismatch (npPrepare x.arr).ncols varT.length)
          else .ok ⟨st, x.cls, npPrepare x.arr, smpT, varT, vis.getD [], meta⟩

/-- The shape invariant maintained by every construction path. -/
def AnnData.dimOk (a : AnnData) : Prop :=
  a.smp.length = a.X.nrows ∧ a.var.length = a.X.ncols

/-- The tail of `AnnData.__getitem__` (lines 227-232) after `data` has been
computed: slice both tables (slices clip to the table's own length), run the
two asserts (`data.shape[1]` of a 1-D result is an `IndexError`), and
construct a fresh instance from the slices, passing `self.vis` and
`**self._meta` through. -/
def AnnData.sliceCont (a : AnnData) (smp var : Sel) (data : NdArr) : Except PyErr AnnData :=
  if (a.smp.selectRows (smp.resolve a.smp.length)).length ≠ data.shape.getD 0 0 then
    .error .assertionError
  else if data.shape.length < 2 then .error .indexError
  else if (a.var.selectRows (var.resolve a.var.length)).length ≠ data.shape.getD 1 0 then
    .error .assertionError
  else AnnData.init ⟨a.cls, data⟩
    (.recarray (a.smp.selectRows (smp.resolve a.smp.length)).fields)
    (.recarray (a.var.selectRows (var.resolve a.var.length)).fields)
    (some a.vis) a.meta

/-- Model of `AnnData.__getitem__` with a tuple index (lines 221-232), value level:
unpack the selector pair, slice `X`, and continue with `sliceCont`. -/
def AnnData.getitem (a : AnnData) (s1 s2 : Sel) : Except PyErr AnnData :=
  match npGet2 a.X s1.unpack s2.unpack with
  | .error e => .error e
  | .ok data => a.sliceCont s1.unpack s2.unpack data

/-- The two table slots of an `AnnData`. -/
inductive Slot
  | smp
  | var
deriving DecidableEq, Repr

def AnnData.slotTable (a : AnnData) : Slot → BoundRecArr
  | .smp => a.smp
  | .var => a.var

def AnnData.setSlot (a : AnnData) : Slot → BoundRecArr → AnnData
  | .smp, t => { a with smp := t }
  | .var, t => { a with var := t }

/-- Truthiness of an `AnnData` in `if self._parent`: `AnnData` defines
`__len__` (line 248) and no `__bool__`, so the owner is falsy exactly when
`X.shape[0] == 0`. -/
def AnnData.truthy (a : AnnData) : Prop := a.X.nrows ≠ 0

instance (a : AnnData) : Decidable a.truthy := by unfold AnnData.truthy; infer_instance

/-- In-place field replacement `super().__setitem__(key, value)` on an
existing column. -/
def BoundRecArr.setField (t : BoundRecArr) (key : String) (value : List Int) : BoundRecArr :=
  ⟨t.fields.map (fun c => if c.1 = key then (c.1, value) else c), t.nameCol⟩

/-- Model of `BoundRecArr.__setitem__` (lines 68-80) called on the table held in slot
`slot` of its parent `a` (so `self._parent is a`).  Returns the parent state
after the call together with the exception, if any; an exception is raised
before any state change, so the state component then equals `a`.

When the parent is truthy and the key is a new column: convert the value,
reject a too-long column, rebuild the table through `append_fields` plus
`BoundRecArr.__new__`, and assign it onto the parent attribute selected by
`self._name_col` (`smp` if it is `smp_names`, else `var`).  Otherwise numpy's
own `__setitem__` runs: an in-place write for an existing field (a length
mismatch is a broadcast error), a `ValueError` for an unknown field. -/
def AnnData.boundSetItem (a : AnnData) (slot : Slot) (key : String) (value : List Int) :
    AnnData × Option PyErr :=
  if a.truthy ∧ key ∉ (a.slotTable slot).names then
    if value.length > (a.slotTable slot).length then
      (a, some (.columnTooLong value.length (a.slotTable slot).length))
    else
      match BoundRecArr.build (.recarray ((a.slotTable slot).fields ++ [(key, value)]))
          (a.slotTable slot).length (a.slotTable slot).nameCol with
      | .ok newT =>
          (a.setSlot (if (a.slotTable slot).nameCol = SMP_NAMES then .smp else .var) newT, none)
      | .error e => (a, some e)
  else
    if key ∈ (a.slotTable slot).names then
      if value.length = (a.slotTable slot).length then
        (a.setSlot slot ((a.slotTable slot).setField key value), none)
      else (a, some .broadcastError)
    else (a, some (.noField key))

/-- Field renaming as done by the `dtype.names` list comprehensions in
`transpose` (lines 253-257). -/
def renameField (fs : List (String × List Int)) (src dst : String) :
    List (String × List Int) :=
  fs.map (fun c => (if c.1 = src then dst else c.1, c.2))

/-- Model of `AnnData.transpose` (lines 251-258), value level: copy `var` with its
identity column renamed to `smp_names`, copy `smp` renamed to `var_names`
(`np.rec.array` copies the data buffer, default `copy=True`), and construct
a new instance from `X.T` and the renamed copies, passing `vis` and `meta`
through.  This value-level definition computes the returned instance only;
note that the `np.rec.array` copies share the source tables' dtype
descriptor objects, so the two `dtype.names` assignments also rename the
source instance's own table fields in place — that side effect on `self` is
modeled in the reference model (`Ref.AnnData.transpose`), while the values
of the returned instance computed here are unaffected by it (the copies are
taken before the respective descriptor is renamed). -/
def AnnData.transpose (a : AnnData) : Except PyErr AnnData :=
  AnnData.init ⟨a.cls, a.X.T⟩ (.recarray (renameField a.var.fields VAR_NAMES SMP_NAMES))
    (.recarray (renameField a.smp.fields SMP_NAMES VAR_NAMES)) (some a.vis) a.meta

/-- Model of `AnnData.__delitem__` (lines 213-219).  Its first statement is
`del self.X[smp, var]`: `np.ndarray` (and so `ma.MaskedArray`) raises
`ValueError: cannot delete array elements` for any index, and `sp.spmatrix`
does not support item deletion either, so the method always raises before
touching any state.  (Even if it did not, `self.smp.iloc` on the next line
would raise `AttributeError`: record arrays have no `iloc`.) -/
def AnnData.delitem (a : AnnData) (s1 s2 : Sel) : Except PyErr Unit :=
  let _ := (s1.unpack, s2.unpack)
  match a.cls with
  | .spmatrix => .error .typeErrorNoDelete
  | _ => .error .cannotDeleteArrayElements

namespace Ref

/-- A heap of Python objects: numpy array objects and dict objects, addressed
by allocation order.  `next` is the next fresh address. -/
structure Heap where
  arrs : List (Nat × NdArr)
  dicts : List (Nat × List (String × Int))
  next : Nat
deriving DecidableEq, Repr

/-- The array object at an address (a dangling address reads as empty). -/
def Heap.arr (h : Heap) (i : Nat) : NdArr := (h.arrs.lookup i).getD ⟨[], []⟩

/-- The dict object at an address. -/
def Heap.dict (h : Heap) (i : Nat) : List (String × Int) := (h.dicts.lookup i).getD []

/-- In-place update of an existing array object. -/
def Heap.setArr (h : Heap) (i : Nat) (x : NdArr) : Heap :=
  ⟨h.arrs.map (fun p => if p.1 = i then (i, x) else p), h.dicts, h.next⟩

/-- Allocation of a fresh dict object. -/
def Heap.allocDict (h : Heap) (d : List (String × Int)) : Nat × Heap :=
  (h.next, ⟨h.arrs, (h.next, d) :: h.dicts, h.next + 1⟩)

/-- Allocation of a fresh array object. -/
def Heap.allocArr (h : Heap) (x : NdArr) : Nat × Heap :=
  (h.next, ⟨(h.next, x) :: h.arrs, h.dicts, h.next + 1⟩)

/-- A strided view of a base array object: element `(i, j)` of the view is
element `(rIdx[i], cIdx[j])` of the base, with the two base axes exchanged
when `swap` is set (as after `.T`). -/
structure XView where
  base : Nat
  rIdx : List Nat
  cIdx : List Nat
  swap : Bool
deriving DecidableEq, Repr

/-- An array-valued Python expression result: either a whole array object or
a view into one.  numpy basic slicing and `.T` return views; advanced
indexing returns a fresh object. -/
inductive XRef
  | whole (addr : Nat)
  | view (v : XView)
deriving DecidableEq, Repr

/-- The base object an `XRef` aliases. -/
def XRef.baseOf : XRef → Nat
  | .whole a => a
  | .view v => v.base

/-- Attribute `x.shape`. -/
def XRef.shapeOf (h : Heap) : XRef → List Nat
  | .whole a => (h.arr a).shape
  | .view v => [v.rIdx.length, v.cIdx.length]

/-- Every 2-D array expression as a view (a whole object is the identity
view over its own shape). -/
def XRef.toView (h : Heap) : XRef → XView
  | .whole a => ⟨a, List.range (h.arr a).nrows, List.range (h.arr a).ncols, false⟩
  | .view v => v

/-- Element read through a view. -/
def readView (h : Heap) (v : XView) (i j : Nat) : Int :=
  let r := v.rIdx.getD i 0
  let c := v.cIdx.getD j 0
  if v.swap then (h.arr v.base).get2 c r else (h.arr v.base).get2 r c

/-- Element read `x[i, j]` through an array expression. -/
def XRef.read (h : Heap) (x : XRef) (i j : Nat) : Int := readView h (x.toView h) i j

/-- Basic slicing of a view: the selected positions compose with the view's
own index maps; the result shares the base object. -/
def XView.sub (v : XView) (rs cs : List Nat) : XView :=
  ⟨v.base, rs.map (fun i => v.rIdx.getD i 0), cs.map (fun j => v.cIdx.getD j 0), v.swap⟩

/-- Property `.T` of a view: same base, axes exchanged. -/
def XView.transposeV (v : XView) : XView := ⟨v.base, v.cIdx, v.rIdx, !v.swap⟩

/-- Materialization of a view into a plain value (used when advanced
indexing copies). -/
def XView.toNd (h : Heap) (v : XView) : NdArr :=
  ⟨[v.rIdx.length, v.cIdx.length],
    (List.range (v.rIdx.length * v.cIdx.length)).map
      (fun k => readView h v (k / v.cIdx.length) (k % v.cIdx.length))⟩

/-- In-place element write through a view: mutates the base array object. -/
def writeView (h : Heap) (v : XView) (i j : Nat) (val : Int) : Heap :=
  let r := v.rIdx.getD i 0
  let c := v.cIdx.getD j 0
  let x := h.arr v.base
  let idx := if v.swap then c * x.ncols + r else r * x.ncols + c
  h.setArr v.base ⟨x.shape, x.data.set idx val⟩

/-- An `AnnData` instance in the reference model: `X` is the array expression
the constructor received (stored without copying, line 157), the bound tables
are values (`BoundRecArr.__new__` copies every column with `np.array`), and
`vis` / `_meta` are dict object addresses. -/
structure AnnData where
  storage_type : StorageType
  cls : PyCls
  X : XRef
  smp : BoundRecArr
  var : BoundRecArr
  vis : Nat
  meta : Nat
deriving DecidableEq, Repr

/-- The rank-1 in-place reshape step `X.shape = (X.shape[0], 1)` of the
constructor (line 150): a rank-1 argument is necessarily a whole array
object, and its shape attribute is overwritten in the heap. -/
def reshapeHeap (x : XRef) (h : Heap) : Heap :=
  if (x.shapeOf h).length = 1 then
    match x with
    | .whole a => h.setArr a ⟨[(x.shapeOf h).getD 0 0, 1], (h.arr a).data⟩
    | .view _ => h
  else h

/-- Assignment `self.vis = vis or` empty-dict (line 164): the given dict object is kept exactly
when truthy (non-empty); a falsy `None` or empty dict is replaced by a fresh
empty dict. -/
def visStep (vis : Option Nat) (h : Heap) : Nat × Heap :=
  match vis with
  | some d => if h.dict d ≠ [] then (d, h) else h.allocDict []
  | none => h.allocDict []

/-- Model of `AnnData.__init__` in the reference model.  The rank-1 reshape mutates
the caller's array object in place (`reshapeHeap`); `vis or {}` keeps or
replaces the dict object (`visStep`); `self._meta = meta` stores the keyword
dict, which Python freshly allocates at every call, so a new dict is
allocated for the given entries. -/
def AnnData.init (cls : PyCls) (x : XRef) (smp var : MetaSource) (vis : Option Nat)
    (meta : List (String × Int)) (h : Heap) : Except PyErr AnnData × Heap :=
  match classifyCls cls with
  | .error e => (.error e, h)
  | .ok st =>
    if (x.shapeOf (reshapeHeap x h)).length ≠ 2 then
      (.error (.invalidRank (x.shapeOf (reshapeHeap x h)).length), reshapeHeap x h)
    else
      match BoundRecArr.build smp ((x.shapeOf (reshapeHeap x h)).getD 0 0) SMP_NAMES with
      | .error e => (.error e, reshapeHeap x h)
      | .ok smpT =>
        match BoundRecArr.build var ((x.shapeOf (reshapeHeap x h)).getD 1 0) VAR_NAMES with
        | .error e => (.error e, reshapeHeap x h)
        | .ok varT =>
          if smpT.length ≠ (x.shapeOf (reshapeHeap x h)).getD 0 0 then
            (.error (.rowMismatch ((x.shapeOf (reshapeHeap x h)).getD 0 0) smpT.length),
             reshapeHeap x h)
          else if varT.length ≠ (x.shapeOf (reshapeHeap x h)).getD 1 0 then
            (.error (.colMismatch ((x.shapeOf (reshapeHeap x h)).getD 1 0) varT.length),
             reshapeHeap x h)
          else
            (.ok ⟨st, cls, x, smpT, varT, (visStep vis (reshapeHeap x h)).1,
               ((visStep vis (reshapeHeap x h)).2.allocDict meta).1⟩,
             ((visStep vis (reshapeHeap x h)).2.allocDict meta).2)

/-- Model of `AnnData.__getitem__` with a tuple index, reference model.  A pair of
basic selectors produces a view sharing the parent's base array; any integer
list triggers advanced indexing, which materializes a fresh array object.
The metadata tables are sliced and then copied by the `BoundRecArr` rebuild;
`self.vis` is passed as the same dict object and `**self._meta` passes the
entries of the parent's meta dict.  `sliceCont` is the tail after `data`
has been computed. -/
def AnnData.sliceCont (a : AnnData) (smp var : Sel) (data : XRef) (h1 : Heap) :
    Except PyErr AnnData × Heap :=
  if (a.smp.selectRows (smp.resolve a.smp.length)).length ≠ (data.shapeOf h1).getD 0 0 then
    (.error .assertionError, h1)
  else if (data.shapeOf h1).length < 2 then (.error .indexError, h1)
  else if (a.var.selectRows (var.resolve a.var.length)).length ≠ (data.shapeOf h1).getD 1 0 then
    (.error .assertionError, h1)
  else AnnData.init a.cls data
    (.recarray (a.smp.selectRows (smp.resolve a.smp.length)).fields)
    (.recarray (a.var.selectRows (var.resolve a.var.length)).fields)
    (some a.vis) (h1.dict a.meta) h1

def AnnData.getitem (a : AnnData) (s1 s2 : Sel) (h : Heap) : Except PyErr AnnData × Heap :=
  if s1.unpack.isBasic && s2.unpack.isBasic then
    a.sliceCont s1.unpack s2.unpack
      (.view ((a.X.toView h).sub (s1.unpack.resolve (a.X.toView h).rIdx.length)
        (s2.unpack.resolve (a.X.toView h).cIdx.length))) h
  else
    match npGet2 ((a.X.toView h).toNd h) s1.unpack s2.unpack with
    | .error e => (.error e, h)
    | .ok nd => a.sliceCont s1.unpack s2.unpack (.whole (h.allocArr nd).1) (h.allocArr nd).2

/-- Model of `AnnData.__setitem__` with an integer pair: `self.X[samp, feat] = val`
writes into the storage region in place, through the stored array
expression. -/
def AnnData.setXElem (a : AnnData) (i j : Nat) (val : Int) (h : Heap) : Heap :=
  writeView h (a.X.toView h) i j val

/-- Model of `AnnData.transpose`, reference model.  `np.rec.array(x)`
(default `copy=True`) copies the data buffer but the copy keeps `x`'s dtype
descriptor object, and the `dtype.names` list-comprehension assignments
(lines 253-254 and 256-257) mutate that shared descriptor in place: line 253
renames `self.var`'s fields (`var_names` to `smp_names`) and line 256
renames `self.smp`'s fields (`smp_names` to `var_names`), so the call
mutates the source instance's tables.  The copies are taken before their
respective descriptor is renamed, so the new instance is built from the
renamed copies of the original field lists, exactly as in the value model;
`self.X.T` is a view sharing the storage object; `vis` and the meta entries
pass through to the fresh instance's constructor.  The method's mutation of
`self` is translated as explicit state passing: the second component of the
result is the post-call state of the source instance (both tables' field
names renamed; the `_name_col` attributes are untouched), produced before
and independently of the constructor's outcome. -/
def AnnData.transpose (a : AnnData) (h : Heap) : (Except PyErr AnnData × Heap) × AnnData :=
  (AnnData.init a.cls (.view (a.X.toView h).transposeV)
    (.recarray (renameField a.var.fields VAR_NAMES SMP_NAMES))
    (.recarray (renameField a.smp.fields SMP_NAMES VAR_NAMES))
    (some a.vis) (h.dict a.meta) h,
   { a with smp := ⟨renameField a.smp.fields SMP_NAMES VAR_NAMES, a.smp.nameCol⟩,
            var := ⟨renameField a.var.fields VAR_NAMES SMP_NAMES, a.var.nameCol⟩ })

end Ref

/-- Elimination for a successful `buildAux`: the table holds exactly the
assembled columns and identity name, the field names were accepted by
`np.dtype` (no duplicates), and every column fit the record-array length
`len(cols[0])`. -/
theorem buildAux_ok {cs : List (String × List Int)} {c : String} {t : BoundRecArr}
    (h : buildAux cs c = .ok t) :
    t = ⟨cs, c⟩ ∧ (cs.map Prod.fst).Nodup ∧ cs ≠ [] ∧
      ∀ cc ∈ cs, cc.2.length = t.length := by
  unfold buildAux at h
  split at h
  · cases h
  · rename_i hnd
    split at h
    · cases h
    · rename_i c0 rest
      split at h
      · rename_i hall
        injection h with h1
        subst h1
        exact ⟨rfl, not_not.mp hnd, by simp, fun cc hcc => by
          simpa [BoundRecArr.length] using List.all_eq_true.mp hall cc hcc⟩
      · cases h

/-- Introduction for a successful `buildAux`. -/
theorem buildAux_intro {c0 : String × List Int} {rest : List (String × List Int)}
    (c : String)
    (hnd : (((c0 :: rest).map Prod.fst)).Nodup)
    (hall : ∀ cc ∈ c0 :: rest, cc.2.length = c0.2.length) :
    buildAux (c0 :: rest) c = .ok ⟨c0 :: rest, c⟩ := by
  have hall2 : ((c0 :: rest).all (fun cc => cc.2.length == c0.2.length)) = true :=
    List.all_eq_true.mpr (fun cc hcc => beq_iff_eq.mpr (hall cc hcc))
  unfold buildAux
  rw [if_neg (not_not.mpr hnd)]
  show (if ((c0 :: rest).all fun cc => cc.2.length == c0.2.length) = true then
      (Except.ok ⟨c0 :: rest, c⟩ : Except PyErr BoundRecArr)
    else .error .broadcastError) = .ok ⟨c0 :: rest, c⟩
  exact if_pos hall2

/-- Elimination for a successful recarray-source `build`. -/
theorem build_recarray_ok {fs : List (String × List Int)} {n : Nat} {c : String}
    {t : BoundRecArr} (h : BoundRecArr.build (.recarray fs) n c = .ok t) :
    t = ⟨fs, c⟩ ∧ (fs.map Prod.fst).Nodup ∧ fs ≠ [] ∧
      ∀ cc ∈ fs, cc.2.length = t.length := buildAux_ok h

/-- Introduction for a successful recarray-source `build`. -/
theorem build_recarray_intro {c0 : String × List Int} {rest : List (String × List Int)}
    (n : Nat) (c : String)
    (hnd : (((c0 :: rest).map Prod.fst)).Nodup)
    (hall : ∀ cc ∈ c0 :: rest, cc.2.length = c0.2.length) :
    BoundRecArr.build (.recarray (c0 :: rest)) n c = .ok ⟨c0 :: rest, c⟩ :=
  buildAux_intro c hnd hall

/-- A successful `build` stores the requested identity-column name. -/
theorem build_nameCol {s : MetaSource} {n : Nat} {c : String} {t : BoundRecArr}
    (h : BoundRecArr.build s n c = .ok t) : t.nameCol = c := by
  cases s with
  | other d => simp [BoundRecArr.build] at h
  | none => exact (buildAux_ok h).1 ▸ rfl
  | recarray fs => exact (buildAux_ok h).1 ▸ rfl
  | mapping fs => exact (buildAux_ok h).1 ▸ rfl

theorem intRange_length (n : Nat) : (intRange n).length = n := by
  unfold intRange
  rw [List.length_map, List.length_range]

/-- Computation of `build` for an absent metadata source: the identity
column alone. -/
theorem build_none_eq (n : Nat) (c : String) :
    BoundRecArr.build .none n c = .ok ⟨[(c, intRange n)], c⟩ :=
  buildAux_intro c (by simp) (by simp)

/-- Elimination for a successful `AnnData.init`: classification succeeded,
the prepared storage is 2-D, both tables were built successfully and passed
`_check_dimensions`, and the fields of the new instance are exactly the
constructor's results. -/
theorem init_ok_elim {x : PyVal} {s v : MetaSource} {vi : Option (List (String × Int))}
    {me : List (String × Int)} {a : AnnData}
    (h : AnnData.init x s v vi me = .ok a) :
    classifyCls x.cls = .ok a.storage_type ∧
    (npPrepare x.arr).shape.length = 2 ∧
    BoundRecArr.build s (npPrepare x.arr).nrows SMP_NAMES = .ok a.smp ∧
    BoundRecArr.build v (npPrepare x.arr).ncols VAR_NAMES = .ok a.var ∧
    a.smp.length = (npPrepare x.arr).nrows ∧
    a.var.length = (npPrepare x.arr).ncols ∧
    a.X = npPrepare x.arr ∧ a.vis = vi.getD [] ∧ a.meta = me ∧ a.cls = x.cls := by
  unfold AnnData.init at h
  split at h
  · cases h
  · rename_i st hst
    split at h
    · cases h
    · rename_i hrank
      split at h
      · cases h
      · rename_i smpT hsmp
        split at h
        · cases h
        · rename_i varT hvar
          split at h
          · cases h
          · split at h
            · cases h
            · rename_i hns hnv
              injection h with h1
              subst h1
              exact ⟨hst, not_not.mp hrank, hsmp, hvar, not_not.mp hns, not_not.mp hnv,
                rfl, rfl, rfl, rfl⟩

/-- Every successfully constructed instance satisfies the shape invariant. -/
theorem init_ok_dimOk {x : PyVal} {s v : MetaSource} {vi : Option (List (String × Int))}
    {me : List (String × Int)} {a : AnnData}
    (h : AnnData.init x s v vi me = .ok a) : a.dimOk := by
  obtain ⟨-, -, -, -, h5, h6, h7, -⟩ := init_ok_elim h
  exact ⟨by rw [h5, h7], by rw [h6, h7]⟩

/-- A successful slice continuation ends in the constructor, so its result
satisfies the shape invariant. -/
theorem sliceCont_ok_dimOk {a : AnnData} {smp var : Sel} {data : NdArr} {b : AnnData}
    (h : a.sliceCont smp var data = .ok b) : b.dimOk := by
  unfold AnnData.sliceCont at h
  split at h
  · cases h
  · split at h
    · cases h
    · split at h
      · cases h
      · exact init_ok_dimOk h

/-- A successful `__getitem__` result satisfies the shape invariant. -/
theorem getitem_ok_dimOk {a : AnnData} {s1 s2 : Sel} {b : AnnData}
    (h : a.getitem s1 s2 = .ok b) : b.dimOk := by
  unfold AnnData.getitem at h
  split at h
  · cases h
  · exact sliceCont_ok_dimOk h

/-- A successful `transpose` result satisfies the shape invariant. -/
theorem transpose_ok_dimOk {a b : AnnData} (h : a.transpose = .ok b) : b.dimOk :=
  init_ok_dimOk h

/-- Concrete 2-by-3 dense instance used by the witnesses:
`AnnData(np.array([[1, 2, 3], [4, 5, 6]]))`. -/
def exM : AnnData :=
  ⟨.Array, .ndarray, ⟨[2, 3], [1, 2, 3, 4, 5, 6]⟩, ⟨[(SMP_NAMES, [0, 1])], SMP_NAMES⟩,
    ⟨[(VAR_NAMES, [0, 1, 2])], VAR_NAMES⟩, [], []⟩

/-- Concrete slice `exM[0, :]`. -/
def exMs : AnnData :=
  ⟨.Array, .ndarray, ⟨[1, 3], [1, 2, 3]⟩, ⟨[(SMP_NAMES, [0])], SMP_NAMES⟩,
    ⟨[(VAR_NAMES, [0, 1, 2])], VAR_NAMES⟩, [], []⟩

/-- Concrete transpose `exM.T`. -/
def exMt : AnnData :=
  ⟨.Array, .ndarray, ⟨[3, 2], [1, 4, 2, 5, 3, 6]⟩, ⟨[(SMP_NAMES, [0, 1, 2])], SMP_NAMES⟩,
    ⟨[(VAR_NAMES, [0, 1])], VAR_NAMES⟩, [], []⟩

/-- Claim C1: for every `AnnData` produced by a public construction path
(initial construction, slicing with any valid selector pair, transpose), the
row table's length equals the storage's row count and the column table's
length equals the storage's column count. -/
theorem C1_shape_invariant :
    (∀ (x : PyVal) (s v : MetaSource) (vi : Option (List (String × Int)))
        (me : List (String × Int)) (a : AnnData),
        AnnData.init x s v vi me = .ok a → a.dimOk) ∧
    (∀ (a : AnnData) (s1 s2 : Sel) (b : AnnData), a.getitem s1 s2 = .ok b → b.dimOk) ∧
    (∀ (a b : AnnData), a.transpose = .ok b → b.dimOk) :=
  ⟨fun _ _ _ _ _ _ h => init_ok_dimOk h,
   fun _ _ _ _ h => getitem_ok_dimOk h,
   fun _ _ h => transpose_ok_dimOk h⟩

/-- Witness for C1 at concrete inputs. -/
theorem C1_shape_invariant_witness :
    (AnnData.init ⟨.ndarray, ⟨[2, 3], [1, 2, 3, 4, 5, 6]⟩⟩ .none .none Option.none [] =
      .ok exM) ∧ exM.dimOk ∧
    (exM.getitem (.int 0) .all = .ok exMs) ∧ exMs.dimOk ∧
    (exM.transpose = .ok exMt) ∧ exMt.dimOk :=
  ⟨by decide,
   C1_shape_invariant.1 ⟨.ndarray, ⟨[2, 3], [1, 2, 3, 4, 5, 6]⟩⟩ .none .none Option.none []
     exM (by decide),
   by decide,
   C1_shape_invariant.2.1 exM (.int 0) .all exMs (by decide),
   by decide,
   C1_shape_invariant.2.2 exM exMt (by decide)⟩

/-- Claim C2 counterexample: constructing with a masked 2-by-2 array
succeeds, but the recorded classification is `StorageType.Array`, not
`StorageType.Masked` — the enum scan hits `Array` first because
`ma.MaskedArray` is a subclass of `np.ndarray`. -/
theorem C2_counterexample :
    (AnnData.init ⟨.maskedArray, ⟨[2, 2], [1, 2, 3, 4]⟩⟩ .none .none Option.none []).map
      AnnData.storage_type = .ok .Array ∧
    ¬ ((AnnData.init ⟨.maskedArray, ⟨[2, 2], [1, 2, 3, 4]⟩⟩ .none .none Option.none []).map
      AnnData.storage_type = .ok .Masked) := by
  decide

/-- Claim C2 (amended): constructing with a dense array, a masked array and
a sparse matrix each succeeds; the recorded classification is the first enum
member whose class the value is an instance of, namely `Array` for a dense
array, `Array` (not `Masked`) for a masked array because `ma.MaskedArray`
subclasses `np.ndarray`, and `Sparse` for a sparse matrix; a plain list
fails with the `ValueError` naming the allowed classes. -/
theorem C2_amended :
    classifyCls .ndarray = .ok .Array ∧
    classifyCls .maskedArray = .ok .Array ∧
    classifyCls .spmatrix = .ok .Sparse ∧
    classifyCls .pyList = .error (.unsupportedStorageType ["ndarray", "MaskedArray", "spmatrix"]) ∧
    (∀ (x : PyVal) (s v : MetaSource) (vi : Option (List (String × Int)))
        (me : List (String × Int)) (a : AnnData),
        AnnData.init x s v vi me = .ok a → classifyCls x.cls = .ok a.storage_type) ∧
    (∃ a, AnnData.init ⟨.ndarray, ⟨[2, 2], [1, 2, 3, 4]⟩⟩ .none .none Option.none [] = .ok a ∧
      a.storage_type = .Array) ∧
    (∃ a, AnnData.init ⟨.maskedArray, ⟨[2, 2], [1, 2, 3, 4]⟩⟩ .none .none Option.none [] =
      .ok a ∧ a.storage_type = .Array) ∧
    (∃ a, AnnData.init ⟨.spmatrix, ⟨[2, 2], [1, 0, 0, 1]⟩⟩ .none .none Option.none [] = .ok a ∧
      a.storage_type = .Sparse) ∧
    (∀ (l : NdArr) (s v : MetaSource) (vi : Option (List (String × Int)))
        (me : List (String × Int)),
        AnnData.init ⟨.pyList, l⟩ s v vi me =
          .error (.unsupportedStorageType ["ndarray", "MaskedArray", "spmatrix"])) := by
  refine ⟨rfl, rfl, rfl, rfl, fun x s v vi me a h => (init_ok_elim h).1, ?_, ?_, ?_, ?_⟩
  · exact ⟨⟨.Array, .ndarray, ⟨[2, 2], [1, 2, 3, 4]⟩, ⟨[(SMP_NAMES, [0, 1])], SMP_NAMES⟩,
      ⟨[(VAR_NAMES, [0, 1])], VAR_NAMES⟩, [], []⟩, by decide, rfl⟩
  · exact ⟨⟨.Array, .maskedArray, ⟨[2, 2], [1, 2, 3, 4]⟩, ⟨[(SMP_NAMES, [0, 1])], SMP_NAMES⟩,
      ⟨[(VAR_NAMES, [0, 1])], VAR_NAMES⟩, [], []⟩, by decide, rfl⟩
  · exact ⟨⟨.Sparse, .spmatrix, ⟨[2, 2], [1, 0, 0, 1]⟩, ⟨[(SMP_NAMES, [0, 1])], SMP_NAMES⟩,
      ⟨[(VAR_NAMES, [0, 1])], VAR_NAMES⟩, [], []⟩, by decide, rfl⟩
  · intro l s v vi me
    unfold AnnData.init
    rfl

/-- Witness for the hypothesis-bearing component of C2 at a concrete
input. -/
theorem C2_amended_witness :
    (AnnData.init ⟨.maskedArray, ⟨[2, 2], [1, 2, 3, 4]⟩⟩ .none .none Option.none [] =
      .ok ⟨.Array, .maskedArray, ⟨[2, 2], [1, 2, 3, 4]⟩, ⟨[(SMP_NAMES, [0, 1])], SMP_NAMES⟩,
        ⟨[(VAR_NAMES, [0, 1])], VAR_NAMES⟩, [], []⟩) ∧
    classifyCls .maskedArray = .ok .Array :=
  ⟨by decide,
   C2_amended.2.2.2.2.1 ⟨.maskedArray, ⟨[2, 2], [1, 2, 3, 4]⟩⟩ .none .none Option.none []
     ⟨.Array, .maskedArray, ⟨[2, 2], [1, 2, 3, 4]⟩, ⟨[(SMP_NAMES, [0, 1])], SMP_NAMES⟩,
       ⟨[(VAR_NAMES, [0, 1])], VAR_NAMES⟩, [], []⟩ (by decide)⟩

/-- Concrete zero-row instance `AnnData(np.empty((0, 2)))`.  `len(ex0) == 0`,
so `ex0` is falsy as an `if` condition. -/
def ex0 : AnnData :=
  ⟨.Array, .ndarray, ⟨[0, 2], []⟩, ⟨[(SMP_NAMES, [])], SMP_NAMES⟩,
    ⟨[(VAR_NAMES, [0, 1])], VAR_NAMES⟩, [], []⟩

/-- Claim C4 counterexample: on the zero-row owner `ex0` (a valid
construction), assigning the new over-long column `[5]` to the bound row
table does not fail with the too-many-entries error: the owner is falsy in
`if self._parent`, so the call falls through to numpy's own `__setitem__`
and fails with a no-field `ValueError` instead.  The slot is still
unchanged. -/
theorem C4_counterexample :
    (AnnData.init ⟨.ndarray, ⟨[0, 2], []⟩⟩ .none .none Option.none [] = .ok ex0) ∧
    ("new" ∉ ex0.smp.names) ∧ ([(5 : Int)].length > ex0.smp.length) ∧
    ex0.boundSetItem .smp "new" [5] = (ex0, some (.noField "new")) ∧
    some (PyErr.noField "new") ≠
      some (PyErr.columnTooLong [(5 : Int)].length ex0.smp.length) := by
  decide

/-- Claim C4 (amended): for every owner with at least one row (so the
`if self._parent` truthiness test passes) and every new column whose values
are longer than the bound table, the assignment fails with the
too-many-entries `ValueError` and the owner — in particular the table
slot — is returned exactly unchanged: the raise precedes the rebuild and the
write-back.  (For a zero-row owner the same call instead fails with numpy's
no-field `ValueError`; the slot is unchanged there as well.) -/
theorem C4_amended (a : AnnData) (slot : Slot) (key : String) (value : List Int)
    (ht : a.truthy) (hk : key ∉ (a.slotTable slot).names)
    (hl : value.length > (a.slotTable slot).length) :
    a.boundSetItem slot key value =
      (a, some (.columnTooLong value.length (a.slotTable slot).length)) := by
  unfold AnnData.boundSetItem
  rw [if_pos ⟨ht, hk⟩, if_pos hl]

/-- Witness for C4 at a concrete input: `exM.smp` has length 2, the
three-entry column is rejected and `exM` is unchanged. -/
theorem C4_amended_witness :
    exM.truthy ∧ ("toolong" ∉ exM.smp.names) ∧ ([(7 : Int), 8, 9].length > exM.smp.length) ∧
    exM.boundSetItem .smp "toolong" [7, 8, 9] = (exM, some (.columnTooLong 3 2)) :=
  ⟨by decide, by decide, by decide,
   C4_amended exM .smp "toolong" [7, 8, 9] (by decide) (by decide) (by decide)⟩

/-- Claim C5 counterexample: on the zero-row owner `ex0` (a valid
construction), assigning a new column whose values have exactly the table's
length 0 does not succeed: the owner is falsy in `if self._parent`, so the
call falls through to numpy's own `__setitem__` and raises the no-field
`ValueError`, and no column is added anywhere. -/
theorem C5_counterexample :
    (AnnData.init ⟨.ndarray, ⟨[0, 2], []⟩⟩ .none .none Option.none [] = .ok ex0) ∧
    ("new" ∉ ex0.smp.names) ∧ (([] : List Int).length = ex0.smp.length) ∧
    ex0.boundSetItem .smp "new" [] = (ex0, some (.noField "new")) ∧
    (ex0.boundSetItem .smp "new" []).2 ≠ none ∧
    "new" ∉ ((ex0.boundSetItem .smp "new" []).1.smp).columns := by
  decide

/-- Claim C5 (amended): for every owner with at least one row (so the
`if self._parent` truthiness test passes), assigning a new column of exactly
the table's length succeeds: the owner's slot selected by the table's
identity-column name (`smp` slot for `smp_names`, `var` slot otherwise) is
replaced by a rebuilt table holding every previous field unchanged plus the
appended new column, and the new name appears in that table's `columns`.
The well-formedness hypotheses (non-empty fields, uniform column lengths, no
duplicate names, identity column present) hold for every table produced by
`BoundRecArr.__new__`. -/
theorem C5_amended (a : AnnData) (slot : Slot) (key : String) (value : List Int)
    (ht : a.truthy) (hk : key ∉ (a.slotTable slot).names)
    (hlen : value.length = (a.slotTable slot).length)
    (hne : (a.slotTable slot).fields ≠ [])
    (hnd : (a.slotTable slot).names.Nodup)
    (huni : ∀ cc ∈ (a.slotTable slot).fields, cc.2.length = (a.slotTable slot).length)
    (hid : (a.slotTable slot).nameCol ∈ (a.slotTable slot).names) :
    a.boundSetItem slot key value =
      (a.setSlot (if (a.slotTable slot).nameCol = SMP_NAMES then .smp else .var)
        ⟨(a.slotTable slot).fields ++ [(key, value)], (a.slotTable slot).nameCol⟩, none) ∧
    key ∈ (BoundRecArr.columns
      ⟨(a.slotTable slot).fields ++ [(key, value)], (a.slotTable slot).nameCol⟩) := by
  have hkc : key ≠ (a.slotTable slot).nameCol := fun he => hk (he ▸ hid)
  obtain ⟨f0, frest, hf⟩ : ∃ f0 frest, (a.slotTable slot).fields = f0 :: frest := by
    cases hfs : (a.slotTable slot).fields with
    | nil => exact absurd hfs hne
    | cons f0 frest => exact ⟨f0, frest, rfl⟩
  have hlen0 : (a.slotTable slot).length = f0.2.length := by
    rw [BoundRecArr.length, hf]
    rfl
  have hnd2 : ((((a.slotTable slot).fields ++ [(key, value)]).map Prod.fst)).Nodup := by
    rw [List.map_append]
    refine List.Nodup.append hnd (by simp) ?_
    intro x hx hx2
    simp only [List.map_cons, List.map_nil, List.mem_singleton] at hx2
    exact hk (hx2 ▸ hx)
  have hall2 : ∀ cc ∈ (a.slotTable slot).fields ++ [(key, value)],
      cc.2.length = f0.2.length := by
    intro cc hcc
    rcases List.mem_append.mp hcc with hcc1 | hcc2
    · exact (huni cc hcc1).trans hlen0
    · rw [List.mem_singleton.mp hcc2]
      exact hlen.trans hlen0
  have hbuild : BoundRecArr.build (.recarray ((a.slotTable slot).fields ++ [(key, value)]))
      (a.slotTable slot).length (a.slotTable slot).nameCol =
      .ok ⟨(a.slotTable slot).fields ++ [(key, value)], (a.slotTable slot).nameCol⟩ := by
    rw [hf]
    rw [List.cons_append]
    exact build_recarray_intro _ _ (by rw [← List.cons_append, ← hf]; exact hnd2)
      (by rw [← List.cons_append, ← hf]; intro cc hcc; exact hall2 cc hcc)
  constructor
  · unfold AnnData.boundSetItem
    rw [if_pos ⟨ht, hk⟩]
    rw [if_neg (by rw [hlen]; exact lt_irrefl _)]
    rw [hbuild]
  · rw [BoundRecArr.columns, BoundRecArr.names]
    have : key ∈ ((a.slotTable slot).fields ++ [(key, value)]).map Prod.fst := by
      rw [List.map_append]
      exact List.mem_append_right _ (by simp)
    exact List.mem_filter.mpr ⟨this, by simpa using hkc⟩

/-- Witness for C5 at a concrete input: `exM` has 2 rows, `exM.smp` gains
the new length-2 column and the write-back lands on the `smp` slot. -/
theorem C5_amended_witness :
    exM.truthy ∧ ("new" ∉ exM.smp.names) ∧ ([(7 : Int), 8].length = exM.smp.length) ∧
    exM.boundSetItem .smp "new" [7, 8] =
      (exM.setSlot .smp ⟨[(SMP_NAMES, [0, 1]), ("new", [7, 8])], SMP_NAMES⟩, none) ∧
    "new" ∈ (BoundRecArr.columns ⟨[(SMP_NAMES, [0, 1]), ("new", [7, 8])], SMP_NAMES⟩) := by
  have h := C5_amended exM .smp "new" [7, 8] (by decide) (by decide) (by decide)
    (by decide) (by decide) (by decide) (by decide)
  exact ⟨by decide, by decide, by decide, h.1, h.2⟩

/-- Claim C8 (code bug): `__delitem__` never performs the documented
deletion.  Its first statement `del self.X[smp, var]` raises unconditionally
(`np.ndarray`, and therefore `ma.MaskedArray`, raise `ValueError: cannot
delete array elements`; `sp.spmatrix` supports no item deletion either), so
neither the storage nor the metadata tables are ever touched — and even if
the deletion succeeded, `self.smp.iloc` on the next line would raise
`AttributeError` because record arrays have no `iloc`.  Evaluated at the
failing input `del exM[0, :]`. -/
theorem C8_delitem_always_raises :
    (∀ (a : AnnData) (s1 s2 : Sel), ∃ e, a.delitem s1 s2 = .error e) ∧
    exM.delitem (.int 0) .all = .error .cannotDeleteArrayElements := by
  constructor
  · intro a s1 s2
    unfold AnnData.delitem
    cases a.cls <;> exact ⟨_, rfl⟩
  · decide

theorem getD_range_map (N : Nat) (f : Nat → Int) (q : Nat) :
    ((List.range N).map f).getD q 0 = if q < N then f q else 0 := by
  rw [List.getD_eq_getElem?_getD, List.getElem?_map]
  by_cases hq : q < N
  · rw [List.getElem?_range hq, if_pos hq]
    rfl
  · rw [List.getElem?_eq_none (by simpa using Nat.le_of_not_lt hq), if_neg hq]
    rfl

theorem range_map_getD_self (l : List Int) :
    (List.range l.length).map (fun k => l.getD k 0) = l := by
  apply List.ext_getElem
  · simp
  · intro q h1 h2
    rw [List.getElem_map, List.getElem_range]
    exact List.getD_eq_getElem l 0 h2

/-- Double transpose of a well-formed 2-D array is the identity. -/
theorem ndT_T {x : NdArr} {m n : Nat} (hs : x.shape = [m, n])
    (hl : x.data.length = m * n) : x.T.T = x := by
  obtain ⟨sh, d⟩ := x
  simp only at hs hl
  subst hs
  show NdArr.T (NdArr.T ⟨[m, n], d⟩) = ⟨[m, n], d⟩
  have h1 : NdArr.T ⟨[m, n], d⟩ =
      ⟨[n, m], (List.range (n * m)).map (fun k => d.getD ((k % m) * n + k / m) 0)⟩ := rfl
  have h2 : NdArr.T ⟨[n, m], (List.range (n * m)).map
      (fun k => d.getD ((k % m) * n + k / m) 0)⟩ =
      ⟨[m, n], (List.range (m * n)).map (fun k =>
        (((List.range (n * m)).map (fun k => d.getD ((k % m) * n + k / m) 0)).getD
          ((k % n) * m + k / n) 0))⟩ := rfl
  rw [h1, h2]
  have h3 : ∀ k ∈ List.range (m * n),
      (((List.range (n * m)).map (fun k => d.getD ((k % m) * n + k / m) 0)).getD
        ((k % n) * m + k / n) 0) = d.getD k 0 := by
    intro k hk
    have hk2 : k < m * n := List.mem_range.mp hk
    have hn : 0 < n := by
      rcases Nat.eq_zero_or_pos n with h | h
      · subst h; simp at hk2
      · exact h
    have hdiv : k / n < m := (Nat.div_lt_iff_lt_mul hn).mpr hk2
    have hmod : k % n < n := Nat.mod_lt k hn
    have hq : (k % n) * m + k / n < n * m := by
      have step1 : (k % n) * m + k / n < (k % n) * m + m := by omega
      have step2 : (k % n) * m + m = (k % n + 1) * m := by ring
      have step3 : (k % n + 1) * m ≤ n * m := Nat.mul_le_mul_right m hmod
      omega
    rw [getD_range_map, if_pos hq]
    have e1 : ((k % n) * m + k / n) % m = k / n := by
      have : (k / n + (k % n) * m) % m = k / n % m := Nat.add_mul_mod_self_right _ _ _
      rw [Nat.add_comm ((k % n) * m) (k / n), this, Nat.mod_eq_of_lt hdiv]
    have hm : 0 < m := by
      rcases Nat.eq_zero_or_pos m with h | h
      · subst h; simp at hk2
      · exact h
    have e2 : ((k % n) * m + k / n) / m = k % n := by
      have : (k / n + (k % n) * m) / m = k / n / m + k % n := Nat.add_mul_div_right _ _ hm
      rw [Nat.add_comm ((k % n) * m) (k / n), this, Nat.div_eq_of_lt hdiv, Nat.zero_add]
    rw [e1, e2]
    congr 1
    rw [Nat.mul_comm]
    exact Nat.div_add_mod k n
  rw [List.map_congr_left h3]
  have h4 : (List.range (m * n)).map (fun k => d.getD k 0) = d := by
    rw [← hl]
    exact range_map_getD_self d
  rw [h4]

theorem ndT_shape {x : NdArr} {m n : Nat} (hs : x.shape = [m, n]) : x.T.shape = [n, m] := by
  obtain ⟨sh, d⟩ := x
  simp only at hs
  subst hs
  rfl

theorem npPrepare_rank2 {x : NdArr} {m n : Nat} (hs : x.shape = [m, n]) : npPrepare x = x := by
  unfold npPrepare
  rw [if_neg (by rw [hs]; simp)]

theorem renameField_names (fs : List (String × List Int)) (p q : String) :
    (renameField fs p q).map Prod.fst = (fs.map Prod.fst).map
      (fun x => if x = p then q else x) := by
  unfold renameField
  rw [List.map_map, List.map_map]
  apply List.map_congr_left
  intro c hc
  rfl

/-- Renaming `p` to `q` and back is the identity when no field is already
named `q`. -/
theorem renameField_roundtrip (fs : List (String × List Int)) (p q : String)
    (hq : q ∉ fs.map Prod.fst) :
    renameField (renameField fs p q) q p = fs := by
  unfold renameField
  rw [List.map_map]
  have hpt : ∀ c ∈ fs, ((fun c => (if c.1 = q then p else c.1, c.2)) ∘
      (fun c => ((if c.1 = p then q else c.1 : String), c.2))) c = c := by
    intro c hc
    have hcq : c.1 ≠ q := fun h => hq (h ▸ List.mem_map_of_mem Prod.fst hc)
    show ((if (if c.1 = p then q else c.1) = q then p else (if c.1 = p then q else c.1)),
      c.2) = c
    by_cases h1 : c.1 = p
    · rw [if_pos h1, if_pos rfl, ← h1]
    · rw [if_neg h1, if_neg hcq]
  rw [List.map_congr_left hpt]
  exact List.map_id' fs

/-- Renaming `p` to `q` in a name list containing both `p` and `q` produces
a duplicate, so the renamed list cannot be accepted by `np.dtype`. -/
theorem not_nodup_rename {l : List String} {p q : String} (hp : p ∈ l) (hq : q ∈ l)
    (hne : p ≠ q) : ¬ (l.map (fun x => if x = p then q else x)).Nodup := by
  intro hnd
  have hfp : (if p = p then q else p) = q := if_pos rfl
  have hfq : (if q = p then q else q) = q := if_neg (Ne.symm hne)
  exact hne (List.inj_on_of_nodup_map hnd hp hq (hfp.trans hfq.symm))

/-- Claim C6: for every `M` with a well-formed 2-D storage and the two
identity columns present, if `M.T` and `M.T.T` both construct successfully
then `M.T.T` has exactly the same storage values, the same table fields
(identity columns included), and the same `vis` and `meta` as `M`. -/
theorem C6_transpose_involution (a b c : AnnData) (m n : Nat)
    (hx : a.X.shape = [m, n]) (hxl : a.X.data.length = m * n)
    (hsm : SMP_NAMES ∈ a.smp.names) (hvr : VAR_NAMES ∈ a.var.names)
    (h1 : a.transpose = .ok b) (h2 : b.transpose = .ok c) :
    c.X = a.X ∧ c.smp.fields = a.smp.fields ∧ c.var.fields = a.var.fields ∧
      c.vis = a.vis ∧ c.meta = a.meta := by
  have hne : SMP_NAMES ≠ VAR_NAMES := by decide
  obtain ⟨-, -, hbs, hbv, -, -, hbX, hbvis, hbmeta, -⟩ := init_ok_elim h1
  have hXT : npPrepare (a.X.T) = a.X.T := npPrepare_rank2 (ndT_shape hx)
  rw [hXT] at hbX
  obtain ⟨hbs1, hbs2, -, -⟩ := build_recarray_ok hbs
  obtain ⟨hbv1, hbv2, -, -⟩ := build_recarray_ok hbv
  -- the accepted renamed name lists rule out pre-existing target names
  have hqsmp : VAR_NAMES ∉ a.smp.names := by
    intro hin
    rw [renameField_names] at hbv2
    exact not_nodup_rename hsm hin hne hbv2
  have hqvar : SMP_NAMES ∉ a.var.names := by
    intro hin
    rw [renameField_names] at hbs2
    exact not_nodup_rename hvr hin hne.symm hbs2
  obtain ⟨-, -, hcs, hcv, -, -, hcX, hcvis, hcmeta, -⟩ := init_ok_elim h2
  have hbXs : b.X.shape = [n, m] := by
    rw [hbX]
    exact ndT_shape hx
  have hXTT : npPrepare (b.X.T) = b.X.T := npPrepare_rank2 (ndT_shape hbXs)
  rw [hXTT, hbX] at hcX
  obtain ⟨hcs1, -, -, -⟩ := build_recarray_ok hcs
  obtain ⟨hcv1, -, -, -⟩ := build_recarray_ok hcv
  refine ⟨?_, ?_, ?_, ?_, ?_⟩
  · rw [hcX, ndT_T hx hxl]
  · rw [hcs1, hbv1]
    exact renameField_roundtrip a.smp.fields SMP_NAMES VAR_NAMES hqsmp
  · rw [hcv1, hbs1]
    exact renameField_roundtrip a.var.fields VAR_NAMES SMP_NAMES hqvar
  · rw [hcvis, hbvis]
    rfl
  · rw [hcmeta, hbmeta]

/-- Witness for C6 at a concrete input: `exM.T.T` is `exM` itself. -/
theorem C6_transpose_involution_witness :
    exM.X.shape = [2, 3] ∧ exM.X.data.length = 2 * 3 ∧
    SMP_NAMES ∈ exM.smp.names ∧ VAR_NAMES ∈ exM.var.names ∧
    exM.transpose = .ok exMt ∧ exMt.transpose = .ok exM ∧
    (exM.X = exM.X ∧ exM.smp.fields = exM.smp.fields ∧ exM.var.fields = exM.var.fields ∧
      exM.vis = exM.vis ∧ exM.meta = exM.meta) :=
  ⟨rfl, rfl, by decide, by decide, by decide, by decide,
   C6_transpose_involution exM exMt exM 2 3 rfl rfl (by decide) (by decide)
     (by decide) (by decide)⟩

/-- Elimination for a successful `__getitem__`: the result's tables are the
copied, well-formed rebuilds of the selected rows, carrying the two identity
column names, and `vis` and `meta` contents pass through. -/
theorem getitem_ok_elim {a : AnnData} {s1 s2 : Sel} {b : AnnData}
    (h : a.getitem s1 s2 = .ok b) :
    ∃ fsS fsV, b.smp = ⟨fsS, SMP_NAMES⟩ ∧ b.var = ⟨fsV, VAR_NAMES⟩ ∧
      (fsS.map Prod.fst).Nodup ∧ fsS ≠ [] ∧ (∀ cc ∈ fsS, cc.2.length = b.smp.length) ∧
      (fsV.map Prod.fst).Nodup ∧ fsV ≠ [] ∧ (∀ cc ∈ fsV, cc.2.length = b.var.length) ∧
      b.vis = a.vis ∧ b.meta = a.meta := by
  unfold AnnData.getitem at h
  split at h
  · cases h
  · unfold AnnData.sliceCont at h
    split at h
    · cases h
    · split at h
      · cases h
      · split at h
        · cases h
        · obtain ⟨-, -, hbs, hbv, -, -, -, hvis, hmeta, -⟩ := init_ok_elim h
          obtain ⟨h1, h2, h3, h4⟩ := build_recarray_ok hbs
          obtain ⟨g1, g2, g3, g4⟩ := build_recarray_ok hbv
          exact ⟨_, _, h1, g1, h2, h3, h4, g2, g3, g4, hvis, hmeta⟩

/-- The other table slot. -/
def Slot.other : Slot → Slot
  | .smp => .var
  | .var => .smp

/-- Claim C10: the metadata tables of a sliced instance are bound to the new
instance: for every successful slice `b` of `a` and every valid new-column
append through either of `b`'s tables, the rebuilt table is written back
onto `b`'s own corresponding slot (the slot the table sits in, since its
identity-column name selects that slot), while `b`'s storage, `vis`, `meta`
and the other table — and a fortiori everything of the parent `a` — are
unchanged. -/
theorem C10_slice_tables_bound_to_slice (a : AnnData) (s1 s2 : Sel) (b : AnnData)
    (slot : Slot) (key : String) (value : List Int)
    (hg : a.getitem s1 s2 = .ok b)
    (ht : b.truthy) (hk : key ∉ (b.slotTable slot).names)
    (hlen : value.length = (b.slotTable slot).length)
    (hid : (b.slotTable slot).nameCol ∈ (b.slotTable slot).names) :
    b.boundSetItem slot key value =
      (b.setSlot slot ⟨(b.slotTable slot).fields ++ [(key, value)],
        (b.slotTable slot).nameCol⟩, none) ∧
    key ∈ (BoundRecArr.columns ⟨(b.slotTable slot).fields ++ [(key, value)],
      (b.slotTable slot).nameCol⟩) ∧
    (b.setSlot slot ⟨(b.slotTable slot).fields ++ [(key, value)],
      (b.slotTable slot).nameCol⟩).X = b.X ∧
    (b.setSlot slot ⟨(b.slotTable slot).fields ++ [(key, value)],
      (b.slotTable slot).nameCol⟩).vis = b.vis ∧
    (b.setSlot slot ⟨(b.slotTable slot).fields ++ [(key, value)],
      (b.slotTable slot).nameCol⟩).meta = b.meta ∧
    (b.setSlot slot ⟨(b.slotTable slot).fields ++ [(key, value)],
      (b.slotTable slot).nameCol⟩).slotTable slot.other = b.slotTable slot.other := by
  obtain ⟨fsS, fsV, hbs, hbv, hndS, hneS, huniS, hndV, hneV, huniV, -, -⟩ := getitem_ok_elim hg
  have hwb : ∀ t : Slot, (if (b.slotTable t).nameCol = SMP_NAMES then Slot.smp else .var) = t := by
    intro t
    cases t with
    | smp =>
        show (if b.smp.nameCol = SMP_NAMES then Slot.smp else .var) = .smp
        rw [hbs]
        rfl
    | var =>
        show (if b.var.nameCol = SMP_NAMES then Slot.smp else .var) = .var
        rw [hbv]
        rfl
  have hprops : (b.slotTable slot).fields ≠ [] ∧ (b.slotTable slot).names.Nodup ∧
      (∀ cc ∈ (b.slotTable slot).fields, cc.2.length = (b.slotTable slot).length) := by
    cases slot with
    | smp =>
        refine ⟨?_, ?_, ?_⟩
        · show b.smp.fields ≠ []
          rw [hbs]
          exact hneS
        · show b.smp.names.Nodup
          rw [BoundRecArr.names, hbs]
          exact hndS
        · show ∀ cc ∈ b.smp.fields, cc.2.length = b.smp.length
          rw [hbs]
          intro cc hcc
          have := huniS cc hcc
          rw [hbs] at this
          exact this
    | var =>
        refine ⟨?_, ?_, ?_⟩
        · show b.var.fields ≠ []
          rw [hbv]
          exact hneV
        · show b.var.names.Nodup
          rw [BoundRecArr.names, hbv]
          exact hndV
        · show ∀ cc ∈ b.var.fields, cc.2.length = b.var.length
          rw [hbv]
          intro cc hcc
          have := huniV cc hcc
          rw [hbv] at this
          exact this
  have h5 := C5_amended b slot key value ht hk hlen hprops.1 hprops.2.1 hprops.2.2 hid
  rw [hwb slot] at h5
  refine ⟨h5.1, h5.2, ?_, ?_, ?_, ?_⟩
  · cases slot <;> rfl
  · cases slot <;> rfl
  · cases slot <;> rfl
  · cases slot <;> rfl

namespace Ref

theorem lookup_update {l : List (Nat × NdArr)} {i : Nat} {x0 : NdArr}
    (hfound : l.lookup i = some x0) (y : NdArr) :
    (l.map (fun p => if p.1 = i then (i, y) else p)).lookup i = some y := by
  induction l with
  | nil => simp [List.lookup] at hfound
  | cons p t ih =>
    obtain ⟨k, b⟩ := p
    rw [List.map_cons]
    by_cases hpa : k = i
    · subst hpa
      rw [if_pos rfl]
      simp [List.lookup]
    · rw [if_neg hpa]
      have hne : (i == k) = false := by
        simp only [beq_eq_false_iff_ne]
        exact fun he => hpa he.symm
      simp only [List.lookup, hne] at hfound ⊢
      exact ih hfound

theorem Heap.arr_setArr {h : Heap} {i : Nat} {x0 : NdArr}
    (hfound : h.arrs.lookup i = some x0) (y : NdArr) : (h.setArr i y).arr i = y := by
  show ((h.arrs.map (fun p => if p.1 = i then (i, y) else p)).lookup i).getD ⟨[], []⟩ = y
  rw [lookup_update hfound]
  rfl

theorem Heap.dict_alloc_self (h : Heap) (d : List (String × Int)) :
    ((h.allocDict d).2).dict (h.allocDict d).1 = d := by
  simp [Heap.allocDict, Heap.dict, List.lookup]

theorem Heap.dict_alloc_other (h : Heap) (d : List (String × Int)) {i : Nat}
    (hi : i ≠ h.next) : ((h.allocDict d).2).dict i = h.dict i := by
  have hne : (i == h.next) = false := by
    simp only [beq_eq_false_iff_ne]
    exact hi
  simp [Heap.allocDict, Heap.dict, List.lookup, hne]

/-- A view argument is rank 2, so the constructor's in-place reshape leaves
the heap alone. -/
theorem reshapeHeap_view (v : XView) (h : Heap) : reshapeHeap (.view v) h = h := by
  unfold reshapeHeap
  split <;> rfl

/-- Elimination for a successful reference-model `__init__` on a view
argument: the view is stored as-is (no copy), both tables were built from
the given sources, the `vis` address is the `vis or` result over the
unchanged heap, the meta dict is freshly allocated, and the final heap is
the input heap plus the dict allocations. -/
theorem init_view_elim {cls : PyCls} {v : XView} {s t : MetaSource} {dv : Option Nat}
    {me : List (String × Int)} {h : Heap} {a : AnnData} {h2 : Heap}
    (hrun : AnnData.init cls (.view v) s t dv me h = (.ok a, h2)) :
    classifyCls cls = .ok a.storage_type ∧
    a.X = .view v ∧
    BoundRecArr.build s v.rIdx.length SMP_NAMES = .ok a.smp ∧
    BoundRecArr.build t v.cIdx.length VAR_NAMES = .ok a.var ∧
    a.vis = (visStep dv h).1 ∧
    a.meta = (visStep dv h).2.next ∧
    h2 = ((visStep dv h).2.allocDict me).2 := by
  unfold AnnData.init at hrun
  rw [reshapeHeap_view] at hrun
  split at hrun
  · exact absurd hrun (by simp)
  · rename_i st hst
    rw [show ((XRef.view v).shapeOf h) = [v.rIdx.length, v.cIdx.length] from rfl] at hrun
    rw [if_neg (by simp)] at hrun
    split at hrun
    · exact absurd hrun (by simp)
    · rename_i smpT hsmp
      split at hrun
      · exact absurd hrun (by simp)
      · rename_i varT hvar
        split at hrun
        · exact absurd hrun (by simp)
        · split at hrun
          · exact absurd hrun (by simp)
          · rw [Prod.mk.injEq] at hrun
            obtain ⟨hl, hr⟩ := hrun
            injection hl with hl2
            subst hl2
            exact ⟨hst, rfl, by simpa using hsmp, by simpa using hvar, rfl, rfl, hr.symm⟩

end Ref

namespace Ref

theorem Heap.arr_congr {h h' : Heap} (he : h'.arrs = h.arrs) (k : Nat) : h'.arr k = h.arr k := by
  rw [Heap.arr, Heap.arr, he]

/-- Element reads depend only on the array part of the heap. -/
theorem read_congr_arrs {h h' : Heap} (he : h'.arrs = h.arrs) (x : XRef) (i j : Nat) :
    XRef.read h' x i j = XRef.read h x i j := by
  cases x with
  | whole addr => simp [XRef.read, XRef.toView, readView, Heap.arr_congr he]
  | view v => simp [XRef.read, XRef.toView, readView, Heap.arr_congr he]

end Ref

/-- Claim C9: when the constructor receives a rank-1 dense array object of
length `L`, it reshapes that very object in place: after the (successful)
construction the caller's array object — same heap address, no copy — has
shape `(L, 1)` with its data untouched, and the constructed instance stores
exactly that object as its storage. -/
theorem C9_reshape_in_place (addr L : Nat) (data : List Int) (h : Ref.Heap)
    (r : Except PyErr Ref.AnnData) (h2 : Ref.Heap)
    (harr : h.arrs.lookup addr = some ⟨[L], data⟩)
    (hrun : Ref.AnnData.init .ndarray (.whole addr) .none .none Option.none [] h = (r, h2)) :
    h2.arr addr = ⟨[L, 1], data⟩ ∧
    (∃ a, r = .ok a) ∧
    (∀ a, r = .ok a → a.X = .whole addr) := by
  have ha : h.arr addr = ⟨[L], data⟩ := by
    rw [Ref.Heap.arr, harr]
    rfl
  have hre : Ref.reshapeHeap (.whole addr) h = h.setArr addr ⟨[L, 1], data⟩ := by
    unfold Ref.reshapeHeap
    rw [show ((Ref.XRef.whole addr).shapeOf h) = [L] from by
      rw [show (Ref.XRef.whole addr).shapeOf h = (h.arr addr).shape from rfl, ha]]
    rw [if_pos (show ([L] : List Nat).length = 1 from rfl)]
    show h.setArr addr ⟨[([L] : List Nat).getD 0 0, 1], (h.arr addr).data⟩ =
      h.setArr addr ⟨[L, 1], data⟩
    rw [ha]
    rfl
  have harr1 : (h.setArr addr ⟨[L, 1], data⟩).arr addr = ⟨[L, 1], data⟩ :=
    Ref.Heap.arr_setArr harr _
  have hs1 : (Ref.XRef.whole addr).shapeOf (h.setArr addr ⟨[L, 1], data⟩) = [L, 1] := by
    rw [show (Ref.XRef.whole addr).shapeOf (h.setArr addr ⟨[L, 1], data⟩) =
      ((h.setArr addr ⟨[L, 1], data⟩).arr addr).shape from rfl, harr1]
  unfold Ref.AnnData.init at hrun
  simp only [show classifyCls PyCls.ndarray = Except.ok StorageType.Array from rfl] at hrun
  rw [hre, hs1] at hrun
  rw [if_neg (by simp)] at hrun
  simp only [show (([L, 1] : List Nat)).getD 0 0 = L from rfl,
    show (([L, 1] : List Nat)).getD 1 0 = 1 from rfl, build_none_eq] at hrun
  rw [if_neg (show ¬ ((⟨[(SMP_NAMES, intRange L)], SMP_NAMES⟩ : BoundRecArr).length ≠ L) from
    by simp [BoundRecArr.length, intRange_length])] at hrun
  rw [if_neg (show ¬ ((⟨[(VAR_NAMES, intRange 1)], VAR_NAMES⟩ : BoundRecArr).length ≠ 1) from
    by simp [BoundRecArr.length, intRange_length])] at hrun
  rw [Prod.mk.injEq] at hrun
  obtain ⟨hl, hr⟩ := hrun
  refine ⟨?_, ⟨_, hl.symm⟩, ?_⟩
  · rw [← hr]
    exact (Ref.Heap.arr_congr rfl addr).trans harr1
  · intro a hra
    rw [← hl] at hra
    injection hra with h3
    rw [← h3]

/-- Concrete heap holding one rank-1 array object of length 3 at address
0. -/
def c9H : Ref.Heap := ⟨[(0, ⟨[3], [1, 2, 3]⟩)], [], 1⟩

/-- Witness for C9 at a concrete input: the caller's rank-1 array at
address 0 ends up with shape `(3, 1)` in place. -/
theorem C9_reshape_in_place_witness :
    (c9H.arrs.lookup 0 = some ⟨[3], [1, 2, 3]⟩) ∧
    ((Ref.AnnData.init .ndarray (.whole 0) .none .none Option.none [] c9H).2.arr 0 =
      ⟨[3, 1], [1, 2, 3]⟩) ∧
    (∃ a, (Ref.AnnData.init .ndarray (.whole 0) .none .none Option.none [] c9H).1 = .ok a) ∧
    (∀ a, (Ref.AnnData.init .ndarray (.whole 0) .none .none Option.none [] c9H).1 = .ok a →
      a.X = .whole 0) := by
  have happ := C9_reshape_in_place 0 3 [1, 2, 3] c9H
    (Ref.AnnData.init .ndarray (.whole 0) .none .none Option.none [] c9H).1
    (Ref.AnnData.init .ndarray (.whole 0) .none .none Option.none [] c9H).2
    (by decide) rfl
  exact ⟨by decide, happ.1, happ.2.1, happ.2.2⟩

theorem Sel.unpack_isBasic {s : Sel} (hb : s.isBasic = true) : s.unpack.isBasic = true := by
  cases s <;> simp [Sel.unpack, Sel.isBasic] at hb ⊢

theorem toView_base (h : Ref.Heap) (x : Ref.XRef) : (Ref.XRef.toView h x).base = x.baseOf := by
  cases x <;> rfl

/-- Claim C3 (amended): for every basic (integer / slice / full-range)
selector pair, `M[selector]` is a new instance whose metadata tables are
independent copies rebuilt from `M`'s current rows — but whose storage is a
numpy view sharing `M`'s base array object (no array is copied or written),
so later in-place mutation of `M`'s storage is visible through the slice;
the `vis` dict is shared by reference exactly when `M`'s vis dict is
non-empty (a fresh empty dict is substituted otherwise); and the
whole-dataset meta mapping is never the same object — `**self._meta` packs a
fresh dict, allocated at a fresh address, carrying the parent's entries. -/
theorem C3_amended (a : Ref.AnnData) (s1 s2 : Sel) (h : Ref.Heap) (b : Ref.AnnData)
    (h2 : Ref.Heap)
    (hb1 : s1.isBasic = true) (hb2 : s2.isBasic = true)
    (hmeta : a.meta < h.next)
    (hrun : a.getitem s1 s2 h = (.ok b, h2)) :
    Ref.XRef.baseOf b.X = Ref.XRef.baseOf a.X ∧
    b.smp.fields = (a.smp.selectRows (s1.unpack.resolve a.smp.length)).fields ∧
    b.var.fields = (a.var.selectRows (s2.unpack.resolve a.var.length)).fields ∧
    (h.dict a.vis ≠ [] → b.vis = a.vis) ∧
    (h.dict a.vis = [] → b.vis = h.next) ∧
    h.next ≤ b.meta ∧ b.meta ≠ a.meta ∧
    h2.dict b.meta = h.dict a.meta ∧
    h2.arrs = h.arrs := by
  unfold Ref.AnnData.getitem at hrun
  rw [if_pos (show (s1.unpack.isBasic && s2.unpack.isBasic) = true from by
    rw [Sel.unpack_isBasic hb1, Sel.unpack_isBasic hb2]
    rfl)] at hrun
  unfold Ref.AnnData.sliceCont at hrun
  split at hrun
  · exact absurd hrun (by simp)
  · split at hrun
    · exact absurd hrun (by simp)
    · split at hrun
      · exact absurd hrun (by simp)
      · obtain ⟨-, hX, hbs, hbv, hvis, hbmeta, hh2⟩ := Ref.init_view_elim hrun
        obtain ⟨hbs1, -, -, -⟩ := build_recarray_ok hbs
        obtain ⟨hbv1, -, -, -⟩ := build_recarray_ok hbv
        have c1 : Ref.XRef.baseOf b.X = Ref.XRef.baseOf a.X := by
          rw [hX]
          exact toView_base h a.X
        have c2 : b.smp.fields = (a.smp.selectRows (s1.unpack.resolve a.smp.length)).fields := by
          rw [hbs1]
        have c3 : b.var.fields = (a.var.selectRows (s2.unpack.resolve a.var.length)).fields := by
          rw [hbv1]
        have c8 : h2.dict b.meta = h.dict a.meta := by
          rw [hh2, hbmeta]
          exact Ref.Heap.dict_alloc_self _ _
        by_cases hd : h.dict a.vis ≠ []
        · have hpv : Ref.visStep (some a.vis) h = (a.vis, h) := by
            show (if h.dict a.vis ≠ [] then (a.vis, h) else h.allocDict []) = (a.vis, h)
            rw [if_pos hd]
          rw [hpv] at hvis hbmeta hh2
          refine ⟨c1, c2, c3, fun _ => hvis, fun hd2 => absurd hd2 hd, ?_, ?_, c8, ?_⟩
          · rw [hbmeta]
          · rw [hbmeta]
            exact (Nat.ne_of_lt hmeta).symm
          · rw [hh2]
            rfl
        · have hpv : Ref.visStep (some a.vis) h = h.allocDict [] := by
            show (if h.dict a.vis ≠ [] then (a.vis, h) else h.allocDict []) = h.allocDict []
            rw [if_neg hd]
          rw [hpv] at hvis hbmeta hh2
          have hd0 : h.dict a.vis = [] := not_not.mp hd
          refine ⟨c1, c2, c3, fun hd2 => absurd hd0 hd2, fun _ => hvis, ?_, ?_, c8, ?_⟩
          · rw [hbmeta]
            show h.next ≤ h.next + 1
            omega
          · rw [hbmeta]
            show h.next + 1 ≠ a.meta
            omega
          · rw [hh2]
            rfl

/-- Concrete heap with a dense 2-by-2 array object at address 0, an empty
vis dict at 1 and a one-entry meta dict at 2. -/
def refH0 : Ref.Heap := ⟨[(0, ⟨[2, 2], [1, 2, 3, 4]⟩)], [(2, [("k", 1)]), (1, [])], 3⟩

/-- The instance `AnnData(np.array([[1, 2], [3, 4]]), k=1)` living in
`refH0`. -/
def refM : Ref.AnnData :=
  ⟨.Array, .ndarray, .whole 0, ⟨[(SMP_NAMES, [0, 1])], SMP_NAMES⟩,
    ⟨[(VAR_NAMES, [0, 1])], VAR_NAMES⟩, 1, 2⟩

/-- The slice `refM[:, :]`: a view of the same base array, fresh dicts at 3
and 4. -/
def refS : Ref.AnnData :=
  ⟨.Array, .ndarray, .view ⟨0, [0, 1], [0, 1], false⟩, ⟨[(SMP_NAMES, [0, 1])], SMP_NAMES⟩,
    ⟨[(VAR_NAMES, [0, 1])], VAR_NAMES⟩, 3, 4⟩

/-- The heap after taking the slice. -/
def refH2 : Ref.Heap :=
  ⟨[(0, ⟨[2, 2], [1, 2, 3, 4]⟩)],
   [(4, [("k", 1)]), (3, []), (2, [("k", 1)]), (1, [])], 5⟩

/-- Claim C3 counterexample: for the concrete parent `refM` and the slice
`refS = refM[:, :]`, the slice's meta dict is not the same object as the
parent's (`4 ≠ 2`), its vis dict is not the same object either (the parent's
vis is empty, so `vis or` replaced it), and mutating the parent's
storage afterwards (`refM[0, 0] = 99`) changes the value the slice reads at
`(0, 0)` from 1 to 99 — the slice's storage is a view, not an independent
copy. -/
theorem C3_counterexample :
    Ref.AnnData.getitem refM .all .all refH0 = (.ok refS, refH2) ∧
    refS.meta ≠ refM.meta ∧
    refS.vis ≠ refM.vis ∧
    Ref.XRef.read refH2 refS.X 0 0 = 1 ∧
    Ref.XRef.read (Ref.AnnData.setXElem refM 0 0 99 refH2) refS.X 0 0 = 99 := by
  decide

/-- Witness for C3 (amended) at the concrete slice `refM[:, :]`. -/
theorem C3_amended_witness :
    (Sel.all.isBasic = true) ∧ (refM.meta < refH0.next) ∧
    (Ref.AnnData.getitem refM .all .all refH0 = (.ok refS, refH2)) ∧
    (Ref.XRef.baseOf refS.X = Ref.XRef.baseOf refM.X ∧
     refS.smp.fields = (refM.smp.selectRows (Sel.all.unpack.resolve refM.smp.length)).fields ∧
     refS.var.fields = (refM.var.selectRows (Sel.all.unpack.resolve refM.var.length)).fields ∧
     (refH0.dict refM.vis ≠ [] → refS.vis = refM.vis) ∧
     (refH0.dict refM.vis = [] → refS.vis = refH0.next) ∧
     refH0.next ≤ refS.meta ∧ refS.meta ≠ refM.meta ∧
     refH2.dict refS.meta = refH0.dict refM.meta ∧
     refH2.arrs = refH0.arrs) :=
  ⟨rfl, by decide, by decide,
   C3_amended refM .all .all refH0 refS refH2 rfl rfl (by decide) (by decide)⟩

/-- Witness for C10 at a concrete input: appending a column to the slice
`exMs = exM[0, :]` writes back onto the slice's own `smp` slot. -/
theorem C10_slice_tables_bound_to_slice_witness :
    (exM.getitem (.int 0) .all = .ok exMs) ∧ exMs.truthy ∧
    ("new" ∉ (exMs.slotTable .smp).names) ∧
    ([(9 : Int)].length = (exMs.slotTable .smp).length) ∧
    ((exMs.slotTable .smp).nameCol ∈ (exMs.slotTable .smp).names) ∧
    (exMs.boundSetItem .smp "new" [9] =
      (exMs.setSlot .smp ⟨[(SMP_NAMES, [0]), ("new", [9])], SMP_NAMES⟩, none)) ∧
    ("new" ∈ (BoundRecArr.columns ⟨[(SMP_NAMES, [0]), ("new", [9])], SMP_NAMES⟩)) :=
  ⟨by decide, by decide, by decide, by decide, by decide,
   (C10_slice_tables_bound_to_slice exM (.int 0) .all exMs .smp "new" [9] (by decide)
     (by decide) (by decide) (by decide) (by decide)).1,
   (C10_slice_tables_bound_to_slice exM (.int 0) .all exMs .smp "new" [9] (by decide)
     (by decide) (by decide) (by decide) (by decide)).2.1⟩

/-- Claim C7 (code bug): `transpose()` is meant to return a new instance and
never mutate the source, but it does mutate it: `np.rec.array`'s copies
(lines 252 and 255) share the source tables' dtype descriptor objects, and
the `dtype.names` assignments (lines 253 and 256) rename those shared
descriptors in place, so the call swaps the identity-column names of both of
the source's tables.  Evaluated at the failing input
`M = AnnData(np.array([[1, 2], [3, 4]]), k=1); M.transpose()`: afterwards
the source's row table's only field is named `var_names` and its column
table's `smp_names`, the row identity column is no longer reachable under
its own name, and the source state differs from the pre-call state — while
the heap (the storage array and the dict objects) is indeed left
unchanged, so the mutation is exactly the field renaming the claim
denies. -/
theorem C7_transpose_mutates_source :
    ((refM.transpose refH0).2).smp.names = [VAR_NAMES] ∧
    ((refM.transpose refH0).2).var.names = [SMP_NAMES] ∧
    refM.smp.names = [SMP_NAMES] ∧ refM.var.names = [VAR_NAMES] ∧
    ((refM.transpose refH0).2).smp.getCol SMP_NAMES = [] ∧
    refM.smp.getCol SMP_NAMES = [0, 1] ∧
    (refM.transpose refH0).2 ≠ refM ∧
    ((refM.transpose refH0).1).2.arrs = refH0.arrs := by
  decide
